import Mathlib

/-!
The stabilisation pipeline of `videoprocessor.cpp`.

A shallow embedding of `VideoProcessor` (`src/videoprocessor.cpp`): the stages
`loadVideo`, `detectFeatures`, `trackFeatures`, `calculateMotionModel`,
`calculateUpdateTransform` and `applyCropTransform`, each as a function from the
video it works on to the video it leaves behind together with the Qt signals it
emits, in order.

The OpenCV and LP primitives the stages call are parameters.  The classes
`Frame`, `Video`, `Displacement` and `L1Model` are declared in headers that are
not part of the source tree at hand; their accessors are modelled from the
specification and marked as such.
-/

namespace Motion

/-! ## Data model -/

/-- Matrix and pixel elements.  The stages copy these values and never compute
with them, so one carrier stands for `uchar` pixels and `float` entries alike. -/
abbrev Scalar := Int

/-- The type `cv::Point2f`. -/
structure Point2f where
  x : Int
  y : Int
  deriving DecidableEq, Repr

/-- The type `cv::Rect`: top-left corner and extent, all `int`. -/
structure Rect where
  x : Int
  y : Int
  width : Int
  height : Int
  deriving DecidableEq, Repr

/-- A `cv::Mat`: its dimensions and its elements by row and column. -/
structure Mat where
  rows : Nat
  cols : Nat
  elem : Nat → Nat → Scalar

/-- The default-constructed `cv::Mat()`: no rows, no columns. -/
def Mat.empty : Mat := { rows := 0, cols := 0, elem := fun _ _ => 0 }

/-- The constructor `Mat m(rows, cols, type)`: it allocates the buffer and does
not initialise it; `prior` is what the buffer held before. -/
def Mat.create (rows cols : Nat) (prior : Nat → Nat → Scalar) : Mat :=
  { rows := rows, cols := cols, elem := prior }

/-- The bounds `cv::Mat::operator()(const Rect&)` asserts on its argument:
`0 <= roi.x && 0 <= roi.width && roi.x + roi.width <= m.cols` and the same for
`y`, `height` and `m.rows`. -/
def Rect.inside (r : Rect) (m : Mat) : Prop :=
  0 ≤ r.x ∧ 0 ≤ r.width ∧ r.x + r.width ≤ (m.cols : Int) ∧
  0 ≤ r.y ∧ 0 ≤ r.height ∧ r.y + r.height ≤ (m.rows : Int)

instance Rect.decidableInside (r : Rect) (m : Mat) : Decidable (r.inside m) :=
  inferInstanceAs (Decidable (0 ≤ r.x ∧ 0 ≤ r.width ∧ r.x + r.width ≤ (m.cols : Int) ∧
    0 ≤ r.y ∧ 0 ≤ r.height ∧ r.y + r.height ≤ (m.rows : Int)))

/-- The view of `m` on the rectangle `r`: `r.height` rows and `r.width` columns,
the element at row i and column j being that of `m` at row `r.y + i` and column
`r.x + j`. -/
def Mat.view (m : Mat) (r : Rect) : Mat :=
  { rows := r.height.toNat
    cols := r.width.toNat
    elem := fun i j => m.elem (r.y.toNat + i) (r.x.toNat + j) }

/-- The sub-image `img(cropWindow)` of OpenCV: the view of `m` on the rectangle
`r`, or `none` where OpenCV's assertion on the bounds throws. -/
def Mat.roi (m : Mat) (r : Rect) : Option Mat :=
  if r.inside m then some (m.view r) else none

/-- The write `m.at<float>(r, c) = v`.  An index outside the matrix is
undefined behaviour in C++ and is `none` here. -/
def Mat.setAt (m : Mat) (r c : Int) (v : Scalar) : Option Mat :=
  if 0 ≤ r ∧ r < (m.rows : Int) ∧ 0 ≤ c ∧ c < (m.cols : Int) then
    some { m with elem := fun i j => if i = r.toNat ∧ j = c.toNat then v else m.elem i j }
  else none

/-- Modelled from the spec: the class `Displacement` (`displacement.h` is
missing).  A source point in frame t, a destination point in frame t-1 and the
inlier flag; the induced vector is the difference of the two points. -/
structure Displacement where
  src : Point2f
  dst : Point2f
  inlier : Bool
  deriving DecidableEq, Repr

/-- Modelled from the spec: the constructor `Displacement(from, to)`
(`displacement.h` is missing).  The flag is set later by the outlier rejector. -/
def Displacement.ctor (src dst : Point2f) : Displacement :=
  { src := src, dst := dst, inlier := false }

/-- Modelled from the spec: the class `Frame` (`frame.h` is missing).  One image
buffer, the detected features, the displacements to the previous frame, the
observed affine transform and the update transform. -/
structure Frame where
  originalData : Mat
  features : List Point2f
  displacements : List Displacement
  affineTransform : Mat
  updateTransform : Mat

/-- Modelled from the spec: the constructor `Frame(image, video)`
(`frame.h` is missing).  A frame that owns the image and no derived state. -/
def Frame.ctor (img : Mat) : Frame :=
  { originalData := img, features := [], displacements := [],
    affineTransform := Mat.empty, updateTransform := Mat.empty }

/-- Modelled from the spec: `Frame::setFeatures` (`frame.h` is missing). -/
def Frame.setFeatures (f : Frame) (features : List Point2f) : Frame :=
  { f with features := features }

/-- Modelled from the spec: `Frame::registerDisplacement` (`frame.h` is
missing).  The displacement is added after those already recorded. -/
def Frame.registerDisplacement (f : Frame) (d : Displacement) : Frame :=
  { f with displacements := f.displacements ++ [d] }

/-- Modelled from the spec: `Frame::getInliers` (`frame.h` is missing).  The
source and the destination points of the displacements flagged inlier. -/
def Frame.getInliers (f : Frame) : List Point2f × List Point2f :=
  ((f.displacements.filter (fun d => d.inlier)).map (fun d => d.src),
   (f.displacements.filter (fun d => d.inlier)).map (fun d => d.dst))

/-- Modelled from the spec: `Frame::setAffineTransform` (`frame.h` is missing). -/
def Frame.setAffineTransform (f : Frame) (m : Mat) : Frame :=
  { f with affineTransform := m }

/-- Modelled from the spec: `Frame::setUpdateTransform` (`frame.h` is missing). -/
def Frame.setUpdateTransform (f : Frame) (m : Mat) : Frame :=
  { f with updateTransform := m }

/-- Modelled from the spec: the class `Video` (`video.h` is missing).  The
ordered frames, the frame rate, the crop window shared by all frames, and the
frame count the constructor was given. -/
structure Video where
  frames : List Frame
  reserved : Int
  fps : Int
  cropBox : Rect

/-- Modelled from the spec: the constructor `Video(frameCount, fps)`
(`video.h` is missing).  No frame yet. -/
def Video.ctor (frameCount fps : Int) : Video :=
  { frames := [], reserved := frameCount, fps := fps, cropBox := ⟨0, 0, 0, 0⟩ }

/-- Modelled from the spec: `Video::getFrameCount` (`video.h` is missing). -/
def Video.getFrameCount (v : Video) : Nat := v.frames.length

/-- Modelled from the spec: `Video::appendFrame` (`video.h` is missing). -/
def Video.appendFrame (v : Video) (f : Frame) : Video :=
  { v with frames := v.frames ++ [f] }

/-- Modelled from the spec: `Video::getFrameAt` and the read side of
`Video::accessFrameAt` (`video.h` is missing). -/
def Video.getFrameAt (v : Video) (i : Nat) : Option Frame := v.frames[i]?

/-- The write side of `Video::accessFrameAt`: the frame at index `i` is replaced
through the pointer the accessor returned. -/
def Video.putFrameAt (v : Video) (i : Nat) (f : Frame) : Video :=
  { v with frames := v.frames.set i f }

/-! ## Signals -/

/-- The process identifiers passed to `processStarted` and `processFinished`. -/
inductive ProcessId where
  | VIDEO_LOADING
  | FEATURE_DETECTION
  | FEATURE_TRACKING
  | OUTLIER_REJECTION
  | ORIGINAL_MOTION
  | STILL_MOTION
  | CROP_TRANSFORM
  | SAVING_VIDEO
  deriving DecidableEq, Repr

/-- The Qt signals `VideoProcessor` emits. -/
inductive Signal where
  | processStarted (p : ProcessId)
  | processFinished (p : ProcessId)
  | progressMade (current total : Int)
  | videoLoaded
  | videoUpdated
  deriving DecidableEq, Repr

/-- The first argument of a `progressMade` signal. -/
def Signal.progressValue : Signal → Option Int
  | Signal.progressMade current _ => some current
  | _ => none

/-- The pair of arguments of a `progressMade` signal. -/
def Signal.progressPair : Signal → Option (Int × Int)
  | Signal.progressMade current total => some (current, total)
  | _ => none

/-- The progress values a run emitted, in order. -/
def progressValues (signals : List Signal) : List Int :=
  signals.filterMap Signal.progressValue

/-- The (current, total) pairs a run emitted, in order. -/
def progressPairs (signals : List Signal) : List (Int × Int) :=
  signals.filterMap Signal.progressPair

/-! ## `detectFeatures` (lines 78-98) -/

/-- One iteration of the loop of `detectFeatures`, at index `i`. -/
def detectFeaturesBody (detect : Mat → List Point2f) (frameCount : Nat)
    (acc : Video × List Signal) (i : Nat) : Video × List Signal :=
  let signals := acc.2 ++ [Signal.progressMade (i : Int) ((frameCount : Int) - 1)]
  match acc.1.getFrameAt i with
  | none => (acc.1, signals)
  | some frame =>
    let features := detect frame.originalData
    (acc.1.putFrameAt i (frame.setFeatures features), signals)

/-- The stage `VideoProcessor::detectFeatures`, with the feature detector
`detect` a parameter. -/
def detectFeatures (detect : Mat → List Point2f) (video : Video) : Video × List Signal :=
  let frameCount := video.getFrameCount
  let r := (List.range frameCount).foldl (detectFeaturesBody detect frameCount)
    (video, [Signal.processStarted ProcessId.FEATURE_DETECTION])
  (r.1, r.2 ++ [Signal.videoUpdated, Signal.processFinished ProcessId.FEATURE_DETECTION])

/-! ## `trackFeatures` (lines 100-137) -/

/-- The three output vectors of `calcOpticalFlowPyrLK`. -/
structure FlowResult where
  nextPositions : List Point2f
  status : List Nat
  err : List Scalar

/-- The inner loop of `trackFeatures` over the feature indices `j`.  Reading
`status[j]` or `nextPositions[j]` past the end of the vector is undefined
behaviour in C++ and is `none` here. -/
def trackInner (features nextPositions : List Point2f) (status : List Nat) :
    List Nat → Frame → Option Frame
  | [], frameT => some frameT
  | j :: js, frameT =>
    match status[j]? with
    | none => none
    | some s =>
      if s = 0 then trackInner features nextPositions status js frameT
      else
        match features[j]?, nextPositions[j]? with
        | some p, some q =>
          trackInner features nextPositions status js
            (frameT.registerDisplacement (Displacement.ctor p q))
        | _, _ => none

/-- One iteration of the outer loop of `trackFeatures`, at frame index `i`. -/
def trackFeaturesBody (flow : Mat → Mat → List Point2f → FlowResult)
    (acc : Video × List Signal) (i : Nat) : Option (Video × List Signal) :=
  match acc.1.getFrameAt i, acc.1.getFrameAt (i - 1) with
  | some frameT, some framePrev =>
    let features := frameT.features
    let signals := acc.2 ++
      [Signal.progressMade ((acc.1.getFrameCount : Int) - (i : Int)) (acc.1.getFrameCount : Int)]
    let r := flow frameT.originalData framePrev.originalData features
    match trackInner features r.nextPositions r.status (List.range features.length) frameT with
    | none => none
    | some frameT' => some (acc.1.putFrameAt i frameT', signals)
  | _, _ => none

/-- The outer loop of `trackFeatures` over the frame indices it visits. -/
def trackFeaturesLoop (flow : Mat → Mat → List Point2f → FlowResult) :
    List Nat → Video × List Signal → Option (Video × List Signal)
  | [], acc => some acc
  | i :: is, acc =>
    match trackFeaturesBody flow acc i with
    | none => none
    | some acc' => trackFeaturesLoop flow is acc'

/-- The frame indices `getFrameCount()-1, ..., 1` the loop of `trackFeatures`
visits, in that order. -/
def trackOrder (frameCount : Nat) : List Nat :=
  (List.range' 1 (frameCount - 1)).reverse

/-- The stage `VideoProcessor::trackFeatures`, with the optical flow `flow`
(`calcOpticalFlowPyrLK`) a parameter. -/
def trackFeatures (flow : Mat → Mat → List Point2f → FlowResult) (video : Video) :
    Option (Video × List Signal) :=
  match trackFeaturesLoop flow (trackOrder video.getFrameCount)
      (video, [Signal.processStarted ProcessId.FEATURE_TRACKING]) with
  | none => none
  | some r =>
    some (r.1, r.2 ++ [Signal.videoUpdated, Signal.processFinished ProcessId.FEATURE_TRACKING])

/-! ## `calculateMotionModel` (lines 149-165) -/

/-- What a run of `calculateMotionModel` leaves behind: the video, the signals
emitted, and the point sets handed to `estimateRigidTransform`, in call order. -/
structure MotionOutcome where
  video : Video
  signals : List Signal
  fitCalls : List (List Point2f × List Point2f)

/-- One iteration of the loop of `calculateMotionModel`, at frame index `i`. -/
def calculateMotionModelBody (estimateRigidTransform : List Point2f → List Point2f → Bool → Mat)
    (acc : MotionOutcome) (i : Nat) : MotionOutcome :=
  let signals := acc.signals ++
    [Signal.progressMade (i : Int) ((acc.video.getFrameCount : Int) - 2)]
  match acc.video.getFrameAt i with
  | none => { acc with signals := signals }
  | some frame =>
    let srcPoints := frame.getInliers.1
    let destPoints := frame.getInliers.2
    let affineTransform := estimateRigidTransform srcPoints destPoints true
    { video := acc.video.putFrameAt i (frame.setAffineTransform affineTransform)
      signals := signals
      fitCalls := acc.fitCalls ++ [(srcPoints, destPoints)] }

/-- The stage `VideoProcessor::calculateMotionModel`, with the affine fit
`estimateRigidTransform` a parameter. -/
def calculateMotionModel (estimateRigidTransform : List Point2f → List Point2f → Bool → Mat)
    (video : Video) : MotionOutcome :=
  let r := (List.range' 1 (video.getFrameCount - 1)).foldl
    (calculateMotionModelBody estimateRigidTransform)
    { video := video, signals := [Signal.processStarted ProcessId.ORIGINAL_MOTION], fitCalls := [] }
  { r with signals := r.signals ++ [Signal.processFinished ProcessId.ORIGINAL_MOTION] }

/-! ## `calculateUpdateTransform` (lines 167-193) -/

/-- What the LP solve reports. -/
inductive SolveStatus where
  | optimal
  | infeasible
  | unbounded
  deriving DecidableEq, Repr

/-- Modelled from the spec: the class `L1Model` (`l1model.h` is missing), as the
operations `calculateUpdateTransform` calls on it.  `construct` is the
constructor `L1Model(video)`, `solve` hands the program to the LP primitive,
which returns a solution or an infeasibility/unboundedness indicator, and
`getVariableSolution` reads a solved parameter.  `toRow` and `toCol` place a
parameter letter in the 2x3 matrix. -/
structure L1Api (M : Type) where
  construct : Video → M
  solve : M → M × SolveStatus
  getVariableSolution : M → Nat → Char → Scalar
  toRow : Char → Int
  toCol : Char → Int

/-- The letters `'a'` to `'e'` the inner loop of `calculateUpdateTransform`
runs through. -/
def letters : List Char := ['a', 'b', 'c', 'd', 'e']

/-- The inner loop of `calculateUpdateTransform`: one write into `m` per letter. -/
def assembleLoop {M : Type} (api : L1Api M) (model : M) (t : Nat) : List Char → Mat → Option Mat
  | [], m => some m
  | letter :: rest, m =>
    match m.setAt (api.toRow letter) (api.toCol letter) (api.getVariableSolution model t letter) with
    | none => none
    | some m' => assembleLoop api model t rest m'

/-- The matrix `calculateUpdateTransform` builds for frame `t`: a fresh 2x3
buffer, then the writes of the inner loop. -/
def assemble {M : Type} (api : L1Api M) (model : M) (prior : Nat → Nat → Nat → Scalar)
    (t : Nat) : Option Mat :=
  assembleLoop api model t letters (Mat.create 2 3 (prior t))

/-- The outer loop of `calculateUpdateTransform` over the frame indices `t`. -/
def updateLoop {M : Type} (api : L1Api M) (model : M) (prior : Nat → Nat → Nat → Scalar) :
    List Nat → Video → Option Video
  | [], video => some video
  | t :: ts, video =>
    match assemble api model prior t, video.getFrameAt t with
    | some m, some f => updateLoop api model prior ts (video.putFrameAt t (f.setUpdateTransform m))
    | _, _ => none

/-- The stage `VideoProcessor::calculateUpdateTransform`.  `prior t` is what the
buffer allocated for frame `t` held before.  What `solve` returns is dropped, as
in the statement `model.solve();`. -/
def calculateUpdateTransform {M : Type} (api : L1Api M) (prior : Nat → Nat → Nat → Scalar)
    (video : Video) : Option (Video × List Signal) :=
  let model := api.construct video
  let signals := [Signal.processStarted ProcessId.STILL_MOTION, Signal.progressMade 1 3]
  let solved := (api.solve model).1
  let signals := signals ++ [Signal.progressMade 2 3]
  match updateLoop api solved prior (List.range' 1 (video.getFrameCount - 1)) video with
  | none => none
  | some video' =>
    some (video', signals ++
      [Signal.progressMade 3 3, Signal.processFinished ProcessId.STILL_MOTION])

/-! ## `applyCropTransform` (lines 195-214) -/

/-- What a run of `applyCropTransform` leaves behind: the member `croppedVideo`,
the signals emitted, and whether the run ended in the exception of `img(cropWindow)`. -/
structure CropOutcome where
  croppedVideo : Video
  signals : List Signal
  thrown : Bool

/-- The loop of `applyCropTransform` over the frame indices `f`. -/
def cropLoop (video : Video) (cropWindow : Rect) : List Nat → Video → List Signal → CropOutcome
  | [], croppedVideo, signals =>
    { croppedVideo := croppedVideo
      signals := signals ++ [Signal.processFinished ProcessId.CROP_TRANSFORM]
      thrown := false }
  | f :: fs, croppedVideo, signals =>
    let signals := signals ++ [Signal.progressMade (f : Int) (video.getFrameCount : Int)]
    match video.getFrameAt f with
    | none => { croppedVideo := croppedVideo, signals := signals, thrown := true }
    | some frame =>
      match frame.originalData.roi cropWindow with
      | none => { croppedVideo := croppedVideo, signals := signals, thrown := true }
      | some croppedImage =>
        cropLoop video cropWindow fs (croppedVideo.appendFrame (Frame.ctor croppedImage)) signals

/-- The stage `VideoProcessor::applyCropTransform`. -/
def applyCropTransform (video : Video) : CropOutcome :=
  cropLoop video video.cropBox (List.range video.getFrameCount)
    (Video.ctor (video.getFrameCount : Int) 0)
    [Signal.processStarted ProcessId.CROP_TRANSFORM]

/-! ## `loadVideo` (lines 49-76) -/

/-- A frame source that opened: the frame count and frame rate it announces and
the frames its successive reads yield. -/
structure Capture where
  frameCount : Int
  fps : Int
  frames : List Mat

/-- The members of `VideoProcessor` that `loadVideo` and `applyCropTransform`
assign. -/
structure VideoProcessor where
  video : Option Video
  croppedVideo : Option Video
  videoPath : String

/-- The loop `while (vc.read(buffer))` of `loadVideo`. -/
def readLoop (numFrames : Int) : List Mat → Nat → Video × List Signal → Video × List Signal
  | [], _, acc => acc
  | buffer :: rest, currentFrame, acc =>
    readLoop numFrames rest (currentFrame + 1)
      (acc.1.appendFrame (Frame.ctor buffer),
       acc.2 ++ [Signal.progressMade (currentFrame : Int) (numFrames - 1)])

/-- The operation `VideoProcessor::loadVideo`, with the frame source
(`cv::VideoCapture::open`) a parameter. -/
def loadVideo (openCapture : String → Option Capture) (self : VideoProcessor) (path : String) :
    VideoProcessor × List Signal :=
  let signals := [Signal.processStarted ProcessId.VIDEO_LOADING]
  match openCapture path with
  | none => (self, signals ++ [Signal.processFinished ProcessId.VIDEO_LOADING])
  | some vc =>
    let numFrames := vc.frameCount
    let fps := vc.fps
    let r := readLoop numFrames vc.frames 0 (Video.ctor numFrames fps, signals)
    ({ self with videoPath := path, video := some r.1 },
     r.2 ++ [Signal.videoLoaded, Signal.processFinished ProcessId.VIDEO_LOADING])

/-! ## Specification-side vocabulary -/

/-- The frame list in which the frames at the indices `idx` have been replaced,
one after the other, by their image under `upd`. -/
def updateAll (upd : Nat → Frame → Frame) : List Nat → List Frame → List Frame
  | [], fs => fs
  | i :: is, fs =>
    updateAll upd is
      (match fs[i]? with
        | some f => fs.set i (upd i f)
        | none => fs)

/-- The image buffer of the frame at index `k`. -/
def imageAt (fs : List Frame) (k : Nat) : Mat :=
  match fs[k]? with
  | some f => f.originalData
  | none => Mat.empty

/-- The displacement the tracker records for feature index `j`, if any: the
pair of `features[j]` and `nextPositions[j]` when `status[j]` is non-zero. -/
def trackedAt (features nextPositions : List Point2f) (status : List Nat) (j : Nat) :
    Option Displacement :=
  match status[j]?, features[j]?, nextPositions[j]? with
  | some s, some p, some q => if s = 0 then none else some (Displacement.ctor p q)
  | _, _, _ => none

/-- The displacements of the features whose status is non-zero, in increasing
order of the feature index. -/
def surviving (features nextPositions : List Point2f) (status : List Nat) : List Displacement :=
  (List.range features.length).filterMap (trackedAt features nextPositions status)

/-- The frame `f` after the tracking pass, `prev` being the image of the frame
before it. -/
def trackFrame (flow : Mat → Mat → List Point2f → FlowResult) (prev : Mat) (f : Frame) : Frame :=
  let r := flow f.originalData prev f.features
  { f with displacements := f.displacements ++ surviving f.features r.nextPositions r.status }

/-- The frames of `v` after the tracking pass: every frame the loop visits is
replaced by its tracked version. -/
def trackedFrames (flow : Mat → Mat → List Point2f → FlowResult) (v : Video) : List Frame :=
  updateAll (fun i f => trackFrame flow (imageAt v.frames (i - 1)) f)
    (trackOrder v.frames.length) v.frames

/-- The frame `f` after motion estimation. -/
def motionFrame (estimateRigidTransform : List Point2f → List Point2f → Bool → Mat)
    (f : Frame) : Frame :=
  f.setAffineTransform (estimateRigidTransform f.getInliers.1 f.getInliers.2 true)

/-- The frames of `v` after motion estimation. -/
def motionFrames (estimateRigidTransform : List Point2f → List Point2f → Bool → Mat)
    (v : Video) : List Frame :=
  updateAll (fun _ f => motionFrame estimateRigidTransform f)
    (List.range' 1 (v.frames.length - 1)) v.frames

/-- The elements of a matrix after the writes of the letters `ls`, in order, on
top of the elements `e`. -/
def writeAll {M : Type} (api : L1Api M) (model : M) (t : Nat) :
    List Char → (Nat → Nat → Scalar) → Nat → Nat → Scalar
  | [], e => e
  | l :: ls, e =>
    writeAll api model t ls
      (fun i j =>
        if i = (api.toRow l).toNat ∧ j = (api.toCol l).toNat then
          api.getVariableSolution model t l
        else e i j)

/-- The 2x3 matrix stored on frame `t`: the prior content of its buffer
overwritten by the five solved parameters. -/
def assembled {M : Type} (api : L1Api M) (model : M) (prior : Nat → Nat → Nat → Scalar)
    (t : Nat) : Mat :=
  { rows := 2, cols := 3, elem := writeAll api model t letters (prior t) }

/-- The frames of `v` after the update transforms have been stored. -/
def updatedFrames {M : Type} (api : L1Api M) (model : M) (prior : Nat → Nat → Nat → Scalar)
    (v : Video) : List Frame :=
  updateAll (fun t f => f.setUpdateTransform (assembled api model prior t))
    (List.range' 1 (v.frames.length - 1)) v.frames

/-- The output frame `applyCropTransform` builds from the frame at index `f`. -/
def croppedFrame (v : Video) (cropWindow : Rect) (f : Nat) : Frame :=
  Frame.ctor ((imageAt v.frames f).view cropWindow)

/-- The progress signal `applyCropTransform` emits at index `f`. -/
def cropProgress (v : Video) (f : Nat) : Signal :=
  Signal.progressMade (f : Int) (v.getFrameCount : Int)

/-- The frame `f` after detection. -/
def detectFrame (detect : Mat → List Point2f) (f : Frame) : Frame :=
  f.setFeatures (detect f.originalData)

/-- The operations of `api` with the status its solve reports replaced by `status`. -/
def L1Api.withStatus {M : Type} (api : L1Api M) (status : SolveStatus) : L1Api M :=
  { api with solve := fun m => ((api.solve m).1, status) }

/-- The contract of `calcOpticalFlowPyrLK`: one next position and one status per
input feature. -/
def FlowContract (flow : Mat → Mat → List Point2f → FlowResult) : Prop :=
  ∀ a b fs, (flow a b fs).nextPositions.length = fs.length ∧
    (flow a b fs).status.length = fs.length

/-- The letters `'a'` to `'e'` are placed inside the 2x3 matrix. -/
def LettersInRange {M : Type} (api : L1Api M) : Prop :=
  ∀ l ∈ letters, 0 ≤ api.toRow l ∧ api.toRow l < 2 ∧ 0 ≤ api.toCol l ∧ api.toCol l < 3

/-- The frames `f` and `g` differ at most in their features. -/
def Frame.sameButFeatures (f g : Frame) : Prop :=
  g.originalData = f.originalData ∧ g.displacements = f.displacements ∧
  g.affineTransform = f.affineTransform ∧ g.updateTransform = f.updateTransform

/-- The frames `f` and `g` differ at most in their displacements. -/
def Frame.sameButDisplacements (f g : Frame) : Prop :=
  g.originalData = f.originalData ∧ g.features = f.features ∧
  g.affineTransform = f.affineTransform ∧ g.updateTransform = f.updateTransform

/-- The frames `f` and `g` differ at most in their observed transform. -/
def Frame.sameButAffineTransform (f g : Frame) : Prop :=
  g.originalData = f.originalData ∧ g.features = f.features ∧
  g.displacements = f.displacements ∧ g.updateTransform = f.updateTransform

/-- The frames `f` and `g` differ at most in their update transform. -/
def Frame.sameButUpdateTransform (f g : Frame) : Prop :=
  g.originalData = f.originalData ∧ g.features = f.features ∧
  g.displacements = f.displacements ∧ g.affineTransform = f.affineTransform

/-- The videos `v` and `w` have the same number of frames, related index by
index by `R`, and the same frame rate and crop window. -/
def Video.framewise (R : Frame → Frame → Prop) (v w : Video) : Prop :=
  w.frames.length = v.frames.length ∧ w.fps = v.fps ∧ w.cropBox = v.cropBox ∧
  ∀ k f, v.getFrameAt k = some f → ∃ g, w.getFrameAt k = some g ∧ R f g

/-! ## Sample inputs -/

/-- A 2x2 image whose pixel at row i and column j is `10 * i + j`. -/
def sampleImage : Mat := { rows := 2, cols := 2, elem := fun i j => 10 * (i : Int) + (j : Int) }

/-- An optical flow that moves every point one pixel to the right and loses the
points of abscissa 0. -/
def witnessFlow : Mat → Mat → List Point2f → FlowResult :=
  fun _ _ fs =>
    { nextPositions := fs.map (fun p => { x := p.x + 1, y := p.y })
      status := fs.map (fun p => if p.x = 0 then 0 else 1)
      err := fs.map (fun _ => 0) }

/-- A frame on the sample image with three features, one of abscissa 0, and one
inlier displacement already recorded. -/
def witnessFrame : Frame :=
  { originalData := sampleImage
    features := [⟨3, 4⟩, ⟨0, 5⟩, ⟨7, 8⟩]
    displacements := [⟨⟨1, 1⟩, ⟨2, 2⟩, true⟩]
    affineTransform := Mat.empty
    updateTransform := Mat.empty }

/-- A video of three frames on the sample image, cropped to its top-left pixel. -/
def witnessVideo : Video :=
  { frames := [Frame.ctor sampleImage, witnessFrame, Frame.ctor sampleImage]
    reserved := 3
    fps := 25
    cropBox := ⟨0, 0, 1, 1⟩ }

/-- A 1x1 image. -/
def tinyImage : Mat := { rows := 1, cols := 1, elem := fun _ _ => 7 }

/-- A video whose second frame is smaller than its crop window: a 2x2 frame,
then a 1x1 frame, cropped to 2x2. -/
def raggedVideo : Video :=
  { frames := [Frame.ctor sampleImage, Frame.ctor tinyImage]
    reserved := 2
    fps := 25
    cropBox := ⟨0, 0, 2, 2⟩ }

/-- A frame source that opens every path and yields no frame. -/
def emptySource : String → Option Capture :=
  fun _ => some { frameCount := 0, fps := 25, frames := [] }

/-- A frame source that opens no path. -/
def closedSource : String → Option Capture := fun _ => none

/-- A processor that has loaded nothing yet. -/
def idleProcessor : VideoProcessor := { video := none, croppedVideo := none, videoPath := "" }

/-- A placement of the letters in the 2x3 matrix: `'a'`, `'b'` and `'e'` in the
first row, `'c'` and `'d'` in the second. -/
def sampleRow (l : Char) : Int := if l = 'c' ∨ l = 'd' then 1 else 0

/-- The column of a letter: `'a'` and `'c'` in column 0, `'b'` and `'d'` in
column 1, `'e'` in column 2. -/
def sampleCol (l : Char) : Int :=
  if l = 'a' ∨ l = 'c' then 0 else if l = 'b' ∨ l = 'd' then 1 else 2

/-- An `L1Model` whose solve reports `status` and whose solved parameter for
frame t and letter l is `100 * t` plus the code of l. -/
def sampleApi (status : SolveStatus) : L1Api Unit :=
  { construct := fun _ => ()
    solve := fun m => (m, status)
    getVariableSolution := fun _ t l => 100 * (t : Int) + (l.toNat : Int)
    toRow := sampleRow
    toCol := sampleCol }

/-- A stand-in for `estimateRigidTransform`: a 2x3 matrix filled with the number
of source points. -/
def sampleFit : List Point2f → List Point2f → Bool → Mat :=
  fun src _ _ => { rows := 2, cols := 3, elem := fun _ _ => (src.length : Int) }

/-- A corner detector that finds the origin and the point (1, 1) in every image. -/
def sampleDetect : Mat → List Point2f := fun _ => [⟨0, 0⟩, ⟨1, 1⟩]

/-- A video of two frames without features or displacements. -/
def gapVideo : Video :=
  { frames := [Frame.ctor sampleImage, Frame.ctor sampleImage]
    reserved := 2
    fps := 25
    cropBox := ⟨0, 0, 1, 1⟩ }

/-! ## Lemmas on frame lists -/

theorem setMatch_getElem? (upd : Frame → Frame) (fs : List Frame) (i k : Nat) :
    (match fs[i]? with
      | some f => fs.set i (upd f)
      | none => fs)[k]? = if k = i then fs[k]?.map upd else fs[k]? := by
  by_cases hk : k = i
  · subst hk
    cases h : fs[k]? with
    | none => simp [h]
    | some f =>
      have hlt : k < fs.length := by
        rcases List.getElem?_eq_some.1 h with ⟨hl, _⟩
        exact hl
      simp [h, hlt]
  · cases h : fs[i]? with
    | none => simp [hk]
    | some f =>
      have : i ≠ k := fun e => hk e.symm
      simp [hk, List.getElem?_set_ne this]

theorem setMatch_length (upd : Frame → Frame) (fs : List Frame) (i : Nat) :
    (match fs[i]? with
      | some f => fs.set i (upd f)
      | none => fs).length = fs.length := by
  cases h : fs[i]? <;> simp

theorem updateAll_length (upd : Nat → Frame → Frame) (idx : List Nat) (fs : List Frame) :
    (updateAll upd idx fs).length = fs.length := by
  induction idx generalizing fs with
  | nil => rfl
  | cons i is ih =>
    simp only [updateAll]
    rw [ih, setMatch_length]

theorem updateAll_getElem? (upd : Nat → Frame → Frame) (idx : List Nat) (hnd : idx.Nodup)
    (fs : List Frame) (k : Nat) :
    (updateAll upd idx fs)[k]? = if k ∈ idx then fs[k]?.map (upd k) else fs[k]? := by
  induction idx generalizing fs with
  | nil => simp [updateAll]
  | cons i is ih =>
    have hi : i ∉ is := (List.nodup_cons.1 hnd).1
    simp only [updateAll]
    rw [ih (List.nodup_cons.1 hnd).2, setMatch_getElem?]
    by_cases hki : k = i
    · subst hki
      simp [hi]
    · simp [hki]

theorem imageAt_updateAll (upd : Nat → Frame → Frame)
    (himg : ∀ i f, (upd i f).originalData = f.originalData)
    (idx : List Nat) (fs : List Frame) (k : Nat) :
    imageAt (updateAll upd idx fs) k = imageAt fs k := by
  induction idx generalizing fs with
  | nil => rfl
  | cons i is ih =>
    simp only [updateAll]
    rw [ih]
    unfold imageAt
    rw [setMatch_getElem?]
    by_cases hki : k = i
    · subst hki
      cases h : fs[k]? <;> simp [himg]
    · simp [hki]

/-! ## The loop of `detectFeatures` -/

theorem detectFeatures_fold (detect : Mat → List Point2f) (n : Nat) (idx : List Nat)
    (v : Video) (s : List Signal) :
    idx.foldl (detectFeaturesBody detect n) (v, s) =
      ({ v with frames := updateAll (fun _ f => detectFrame detect f) idx v.frames },
       s ++ idx.map (fun (i : Nat) => Signal.progressMade (i : Int) ((n : Int) - 1))) := by
  induction idx generalizing v s with
  | nil => simp [updateAll]
  | cons i is ih =>
    simp only [List.foldl_cons, updateAll, List.map_cons]
    cases h : v.frames[i]? with
    | none =>
      simp only [detectFeaturesBody, Video.getFrameAt, h]
      rw [ih]
      simp
    | some f =>
      simp only [detectFeaturesBody, Video.getFrameAt, h, Video.putFrameAt]
      rw [ih]
      simp [detectFrame]

/-! ## The loops of `trackFeatures` -/

theorem trackInner_eq (features nextPositions : List Point2f) (status : List Nat)
    (hN : nextPositions.length = features.length) (hS : status.length = features.length)
    (js : List Nat) (hjs : ∀ j ∈ js, j < features.length) (frameT : Frame) :
    trackInner features nextPositions status js frameT =
      some { frameT with displacements :=
        frameT.displacements ++ js.filterMap (trackedAt features nextPositions status) } := by
  induction js generalizing frameT with
  | nil => simp [trackInner]
  | cons j js ih =>
    have hj : j < features.length := hjs j (List.mem_cons_self _ _)
    have hjs2 : ∀ k ∈ js, k < features.length := fun k hk => hjs k (List.mem_cons_of_mem _ hk)
    have hjS : j < status.length := by omega
    have hjN : j < nextPositions.length := by omega
    have e1 : status[j]? = some status[j] := List.getElem?_eq_getElem hjS
    have e2 : features[j]? = some features[j] := List.getElem?_eq_getElem hj
    have e3 : nextPositions[j]? = some nextPositions[j] := List.getElem?_eq_getElem hjN
    by_cases hs : status[j] = 0
    · simp only [trackInner, e1, hs, if_true]
      rw [ih hjs2]
      simp [List.filterMap_cons, trackedAt, e1, e2, e3, hs]
    · simp only [trackInner, e1, e2, e3, hs, if_false]
      rw [ih hjs2]
      simp [List.filterMap_cons, trackedAt, e1, e2, e3, hs, Frame.registerDisplacement]

theorem trackFeaturesLoop_eq (flow : Mat → Mat → List Point2f → FlowResult)
    (hflow : FlowContract flow) (v0 : Video) (idx : List Nat)
    (hidx : ∀ i ∈ idx, 1 ≤ i ∧ i < v0.frames.length) (v : Video) (s : List Signal)
    (hlen : v.frames.length = v0.frames.length)
    (himg : ∀ k, imageAt v.frames k = imageAt v0.frames k) :
    trackFeaturesLoop flow idx (v, s) =
      some ({ v with frames :=
               updateAll (fun i f => trackFrame flow (imageAt v0.frames (i - 1)) f) idx v.frames },
            s ++ idx.map (fun (i : Nat) => Signal.progressMade
              ((v0.frames.length : Int) - (i : Int)) (v0.frames.length : Int))) := by
  induction idx generalizing v s with
  | nil => simp [trackFeaturesLoop, updateAll]
  | cons i is ih =>
    have hi := hidx i (List.mem_cons_self _ _)
    have his : ∀ k ∈ is, 1 ≤ k ∧ k < v0.frames.length :=
      fun k hk => hidx k (List.mem_cons_of_mem _ hk)
    have hi1 : i < v.frames.length := by omega
    have hi0 : i - 1 < v.frames.length := by omega
    have e1 : v.frames[i]? = some v.frames[i] := List.getElem?_eq_getElem hi1
    have e0 : v.frames[i - 1]? = some v.frames[i - 1] := List.getElem?_eq_getElem hi0
    have hprev : (v.frames[i - 1]).originalData = imageAt v0.frames (i - 1) := by
      rw [← himg (i - 1)]
      simp [imageAt, e0]
    have hc := hflow (v.frames[i]).originalData (v.frames[i - 1]).originalData (v.frames[i]).features
    have hin := trackInner_eq (v.frames[i]).features
      (flow (v.frames[i]).originalData (v.frames[i - 1]).originalData
        (v.frames[i]).features).nextPositions
      (flow (v.frames[i]).originalData (v.frames[i - 1]).originalData (v.frames[i]).features).status
      hc.1 hc.2 (List.range (v.frames[i]).features.length)
      (fun j hj => List.mem_range.1 hj) (v.frames[i])
    have hbody : trackFeaturesBody flow (v, s) i =
        some (v.putFrameAt i (trackFrame flow (imageAt v0.frames (i - 1)) (v.frames[i])),
          s ++ [Signal.progressMade ((v0.frames.length : Int) - (i : Int))
            (v0.frames.length : Int)]) := by
      simp only [trackFeaturesBody, Video.getFrameAt, e1, e0, hin, Video.getFrameCount, hlen]
      simp [trackFrame, surviving, hprev]
    simp only [trackFeaturesLoop, hbody, updateAll, e1, List.map_cons]
    rw [ih his]
    · simp [Video.putFrameAt]
    · simp [Video.putFrameAt, hlen]
    · intro k
      rw [← himg k]
      have := imageAt_updateAll (fun i f => trackFrame flow (imageAt v0.frames (i - 1)) f)
        (fun _ _ => rfl) [i] v.frames k
      simpa [updateAll, e1, Video.putFrameAt] using this

theorem trackOrder_nodup (n : Nat) : (trackOrder n).Nodup := by
  unfold trackOrder
  rw [List.nodup_reverse]
  exact List.nodup_range' 1 (n - 1)

theorem mem_trackOrder (n i : Nat) : i ∈ trackOrder n ↔ 1 ≤ i ∧ i < n := by
  unfold trackOrder
  rw [List.mem_reverse, List.mem_range'_1]
  omega

theorem trackFeatures_eq (flow : Mat → Mat → List Point2f → FlowResult)
    (hflow : FlowContract flow) (v : Video) :
    trackFeatures flow v =
      some ({ v with frames := trackedFrames flow v },
            [Signal.processStarted ProcessId.FEATURE_TRACKING] ++
              (trackOrder v.frames.length).map (fun (i : Nat) => Signal.progressMade
                ((v.frames.length : Int) - (i : Int)) (v.frames.length : Int)) ++
              [Signal.videoUpdated, Signal.processFinished ProcessId.FEATURE_TRACKING]) := by
  unfold trackFeatures trackedFrames
  rw [Video.getFrameCount, trackFeaturesLoop_eq flow hflow v (trackOrder v.frames.length)
    (fun i hi => (mem_trackOrder _ _).1 hi) v _ rfl (fun _ => rfl)]


theorem witnessFlow_contract : FlowContract witnessFlow := by
  intro a b fs
  simp [witnessFlow]

/-! ## The loop of `calculateMotionModel` -/

theorem calculateMotionModel_fold
    (estimateRigidTransform : List Point2f → List Point2f → Bool → Mat)
    (idx : List Nat) (hnd : idx.Nodup) (acc : MotionOutcome) :
    idx.foldl (calculateMotionModelBody estimateRigidTransform) acc =
      { video := { acc.video with frames :=
          (updateAll (fun _ f => motionFrame estimateRigidTransform f) idx acc.video.frames) }
        signals := (acc.signals ++ idx.map (fun (i : Nat) =>
          Signal.progressMade (i : Int) ((acc.video.frames.length : Int) - 2)))
        fitCalls := (acc.fitCalls ++
          idx.filterMap (fun i => acc.video.frames[i]?.map Frame.getInliers)) } := by
  induction idx generalizing acc with
  | nil => simp [updateAll]
  | cons i is ih =>
    have hi : i ∉ is := (List.nodup_cons.1 hnd).1
    have hnd2 : is.Nodup := (List.nodup_cons.1 hnd).2
    simp only [List.foldl_cons, updateAll, List.map_cons, List.filterMap_cons]
    cases h : acc.video.frames[i]? with
    | none =>
      simp only [calculateMotionModelBody, Video.getFrameAt, h, Video.getFrameCount]
      rw [ih hnd2]
      simp
    | some f =>
      simp only [calculateMotionModelBody, Video.getFrameAt, h, Video.putFrameAt,
        Video.getFrameCount]
      rw [ih hnd2]
      have hcongr : List.filterMap
          (fun j => (acc.video.frames.set i
            (f.setAffineTransform (estimateRigidTransform f.getInliers.1 f.getInliers.2 true)))[j]?.map
              Frame.getInliers) is =
          List.filterMap (fun j => acc.video.frames[j]?.map Frame.getInliers) is := by
        apply List.filterMap_congr
        intro j hj
        have hne : i ≠ j := fun e => hi (e ▸ hj)
        simp [List.getElem?_set_ne hne]
      simp [motionFrame, hcongr]

theorem calculateMotionModel_eq
    (estimateRigidTransform : List Point2f → List Point2f → Bool → Mat) (v : Video) :
    calculateMotionModel estimateRigidTransform v =
      { video := { v with frames := motionFrames estimateRigidTransform v }
        signals := ([Signal.processStarted ProcessId.ORIGINAL_MOTION] ++
          (List.range' 1 (v.frames.length - 1)).map (fun (i : Nat) =>
            Signal.progressMade (i : Int) ((v.frames.length : Int) - 2)) ++
          [Signal.processFinished ProcessId.ORIGINAL_MOTION])
        fitCalls := ((List.range' 1 (v.frames.length - 1)).filterMap
          (fun i => v.frames[i]?.map Frame.getInliers)) } := by
  unfold calculateMotionModel motionFrames
  simp only [Video.getFrameCount]
  rw [calculateMotionModel_fold _ _ (List.nodup_range' 1 (v.frames.length - 1))]
  simp

/-! ## The loops of `calculateUpdateTransform` -/

theorem assembleLoop_eq {M : Type} (api : L1Api M) (model : M) (t : Nat) (ls : List Char)
    (hin : ∀ l ∈ ls, 0 ≤ api.toRow l ∧ api.toRow l < 2 ∧ 0 ≤ api.toCol l ∧ api.toCol l < 3)
    (m : Mat) (hr : m.rows = 2) (hc : m.cols = 3) :
    assembleLoop api model t ls m =
      some { rows := 2, cols := 3, elem := writeAll api model t ls m.elem } := by
  induction ls generalizing m with
  | nil =>
    cases m
    simp only at hr hc
    subst hr hc
    simp [assembleLoop, writeAll]
  | cons l ls ih =>
    have hl := hin l (List.mem_cons_self _ _)
    have hls := fun k hk => hin k (List.mem_cons_of_mem _ hk)
    have hcond : 0 ≤ api.toRow l ∧ api.toRow l < (m.rows : Int) ∧
        0 ≤ api.toCol l ∧ api.toCol l < (m.cols : Int) := by
      rw [hr, hc]
      exact hl
    simp only [assembleLoop, Mat.setAt, if_pos hcond]
    exact ih hls
      (Mat.mk m.rows m.cols (fun i j =>
        if i = (api.toRow l).toNat ∧ j = (api.toCol l).toNat then
          api.getVariableSolution model t l
        else m.elem i j)) hr hc

theorem assemble_eq {M : Type} (api : L1Api M) (hin : LettersInRange api) (model : M)
    (prior : Nat → Nat → Nat → Scalar) (t : Nat) :
    assemble api model prior t = some (assembled api model prior t) := by
  unfold assemble assembled
  rw [assembleLoop_eq api model t letters hin _ rfl rfl]
  rfl

theorem updateLoop_eq {M : Type} (api : L1Api M) (hin : LettersInRange api) (model : M)
    (prior : Nat → Nat → Nat → Scalar) (idx : List Nat) (v : Video)
    (hidx : ∀ t ∈ idx, t < v.frames.length) :
    updateLoop api model prior idx v =
      some { v with frames :=
        (updateAll (fun t f => f.setUpdateTransform (assembled api model prior t)) idx v.frames) } := by
  induction idx generalizing v with
  | nil => simp [updateLoop, updateAll]
  | cons t ts ih =>
    have ht : t < v.frames.length := hidx t (List.mem_cons_self _ _)
    have e1 : v.frames[t]? = some v.frames[t] := List.getElem?_eq_getElem ht
    simp only [updateLoop, assemble_eq api hin, Video.getFrameAt, e1, updateAll]
    rw [ih]
    · simp [Video.putFrameAt]
    · intro k hk
      simpa [Video.putFrameAt] using hidx k (List.mem_cons_of_mem _ hk)

theorem calculateUpdateTransform_eq {M : Type} (api : L1Api M) (hin : LettersInRange api)
    (prior : Nat → Nat → Nat → Scalar) (v : Video) :
    calculateUpdateTransform api prior v =
      some ({ v with frames := updatedFrames api (api.solve (api.construct v)).1 prior v },
        [Signal.processStarted ProcessId.STILL_MOTION, Signal.progressMade 1 3,
         Signal.progressMade 2 3, Signal.progressMade 3 3,
         Signal.processFinished ProcessId.STILL_MOTION]) := by
  unfold calculateUpdateTransform updatedFrames
  simp only [Video.getFrameCount]
  rw [updateLoop_eq api hin]
  · simp
  · intro t ht
    have := List.mem_range'_1.1 ht
    omega

/-! ## The loop of `applyCropTransform` -/

theorem cropLoop_inside (v : Video) (cropWindow : Rect) (idx : List Nat)
    (hidx : ∀ f ∈ idx, f < v.frames.length ∧ cropWindow.inside (imageAt v.frames f))
    (cv : Video) (s : List Signal) :
    cropLoop v cropWindow idx cv s =
      { croppedVideo := { cv with frames := (cv.frames ++ idx.map (croppedFrame v cropWindow)) }
        signals := (s ++ idx.map (cropProgress v) ++
          [Signal.processFinished ProcessId.CROP_TRANSFORM])
        thrown := false } := by
  induction idx generalizing cv s with
  | nil => simp [cropLoop]
  | cons f fs ih =>
    have hf := hidx f (List.mem_cons_self _ _)
    have e1 : v.frames[f]? = some v.frames[f] := List.getElem?_eq_getElem hf.1
    have himg : imageAt v.frames f = (v.frames[f]).originalData := by simp [imageAt, e1]
    have hroi : (v.frames[f]).originalData.roi cropWindow =
        some ((v.frames[f]).originalData.view cropWindow) := by
      have := hf.2
      rw [himg] at this
      simp [Mat.roi, this]
    simp only [cropLoop, Video.getFrameAt, e1, hroi]
    rw [ih (fun k hk => hidx k (List.mem_cons_of_mem _ hk))]
    simp [Video.appendFrame, croppedFrame, cropProgress, himg]

theorem cropLoop_outside (v : Video) (cropWindow : Rect) (pre : List Nat) (k : Nat)
    (post : List Nat)
    (hpre : ∀ f ∈ pre, f < v.frames.length ∧ cropWindow.inside (imageAt v.frames f))
    (hk : ¬ cropWindow.inside (imageAt v.frames k))
    (cv : Video) (s : List Signal) :
    cropLoop v cropWindow (pre ++ k :: post) cv s =
      { croppedVideo := { cv with frames := (cv.frames ++ pre.map (croppedFrame v cropWindow)) }
        signals := (s ++ (pre ++ [k]).map (cropProgress v))
        thrown := true } := by
  induction pre generalizing cv s with
  | nil =>
    cases h : v.frames[k]? with
    | none => simp [cropLoop, Video.getFrameAt, h, cropProgress]
    | some frame =>
      have himg : imageAt v.frames k = frame.originalData := by simp [imageAt, h]
      rw [himg] at hk
      simp [cropLoop, Video.getFrameAt, h, Mat.roi, hk, cropProgress]
  | cons f fs ih =>
    have hf := hpre f (List.mem_cons_self _ _)
    have e1 : v.frames[f]? = some v.frames[f] := List.getElem?_eq_getElem hf.1
    have himg : imageAt v.frames f = (v.frames[f]).originalData := by simp [imageAt, e1]
    have hroi : (v.frames[f]).originalData.roi cropWindow =
        some ((v.frames[f]).originalData.view cropWindow) := by
      have := hf.2
      rw [himg] at this
      simp [Mat.roi, this]
    rw [List.cons_append]
    simp only [cropLoop, Video.getFrameAt, e1, hroi]
    rw [ih (fun j hj => hpre j (List.mem_cons_of_mem _ hj))]
    simp [Video.appendFrame, croppedFrame, cropProgress, himg]

theorem cropLoop_progress (v : Video) (cropWindow : Rect) (idx : List Nat)
    (cv : Video) (s : List Signal) :
    ∃ pre, pre <+: idx ∧
      progressValues (cropLoop v cropWindow idx cv s).signals =
        progressValues s ++ pre.map (fun (f : Nat) => (f : Int)) := by
  induction idx generalizing cv s with
  | nil =>
    refine ⟨[], List.prefix_refl _, ?_⟩
    simp [cropLoop, progressValues, Signal.progressValue]
  | cons f fs ih =>
    cases h : v.frames[f]? with
    | none =>
      refine ⟨[f], by simp, ?_⟩
      simp [cropLoop, Video.getFrameAt, h, progressValues, Signal.progressValue]
    | some frame =>
      cases hroi : frame.originalData.roi cropWindow with
      | none =>
        refine ⟨[f], by simp, ?_⟩
        simp [cropLoop, Video.getFrameAt, h, hroi, progressValues, Signal.progressValue]
      | some img =>
        obtain ⟨pre, hpre, heq⟩ := ih (cv.appendFrame (Frame.ctor img))
          (s ++ [Signal.progressMade (f : Int) (v.getFrameCount : Int)])
        refine ⟨f :: pre, by simpa using hpre, ?_⟩
        simp only [cropLoop, Video.getFrameAt, h, hroi]
        rw [heq]
        simp [progressValues, Signal.progressValue]

/-! ## Properties of `trackFeatures` -/

theorem trackedAt_cons_succ (p q : Point2f) (s : Nat) (features nextPositions : List Point2f)
    (status : List Nat) (j : Nat) :
    trackedAt (p :: features) (q :: nextPositions) (s :: status) (j + 1) =
      trackedAt features nextPositions status j := by
  simp [trackedAt]

theorem surviving_length (status : List Nat) (features nextPositions : List Point2f)
    (hN : nextPositions.length = features.length) (hS : status.length = features.length) :
    (surviving features nextPositions status).length =
      (status.filter (fun s => decide (s ≠ 0))).length := by
  induction status generalizing features nextPositions with
  | nil =>
    have : features = [] := List.eq_nil_of_length_eq_zero (by simpa using hS.symm)
    subst this
    simp [surviving]
  | cons s status ih =>
    cases features with
    | nil => simp at hS
    | cons p features =>
      cases nextPositions with
      | nil => simp at hN
      | cons q nextPositions =>
        have hN2 : nextPositions.length = features.length := by simpa using hN
        have hS2 : status.length = features.length := by simpa using hS
        have h := ih features nextPositions hN2 hS2
        unfold surviving at h ⊢
        rw [List.length_cons, List.range_succ_eq_map, List.filterMap_cons, List.filterMap_map]
        have hfun : (trackedAt (p :: features) (q :: nextPositions) (s :: status)) ∘ Nat.succ =
            trackedAt features nextPositions status := by
          funext j
          exact trackedAt_cons_succ p q s features nextPositions status j
        rw [hfun]
        by_cases hs : s = 0
        · simp [trackedAt, hs, h]
        · simp [trackedAt, hs, h]

/-- C1: for every frame index t with 1 <= t <= N-1, `trackFeatures` returns, and
the displacements of frame t afterwards are those it had before followed by the
displacements `Displacement(features[j], nextPositions[j])` of exactly the
feature indices j whose `status[j]` is non-zero, in increasing order of j, where
the optical flow was run on the images of frames t and t-1 and on the features of
frame t; their number is the number of non-zero statuses, and none is added when
the frame has no features. -/
theorem trackFeatures_registers_tracked_pairs
    (flow : Mat → Mat → List Point2f → FlowResult) (hflow : FlowContract flow)
    (v : Video) (t : Nat) (h1 : 1 ≤ t) (ht : t < v.getFrameCount) :
    ∃ r frameT framePrev frameT',
      trackFeatures flow v = some r ∧
      v.getFrameAt t = some frameT ∧ v.getFrameAt (t - 1) = some framePrev ∧
      r.1.getFrameAt t = some frameT' ∧
      frameT'.displacements = frameT.displacements ++
        surviving frameT.features
          (flow frameT.originalData framePrev.originalData frameT.features).nextPositions
          (flow frameT.originalData framePrev.originalData frameT.features).status ∧
      (surviving frameT.features
          (flow frameT.originalData framePrev.originalData frameT.features).nextPositions
          (flow frameT.originalData framePrev.originalData frameT.features).status).length =
        ((flow frameT.originalData framePrev.originalData frameT.features).status.filter
          (fun s => decide (s ≠ 0))).length ∧
      (frameT.features = [] → frameT'.displacements = frameT.displacements) := by
  have ht1 : t < v.frames.length := ht
  have ht0 : t - 1 < v.frames.length := by omega
  have e1 : v.frames[t]? = some v.frames[t] := List.getElem?_eq_getElem ht1
  have e0 : v.frames[t - 1]? = some v.frames[t - 1] := List.getElem?_eq_getElem ht0
  have hmem : t ∈ trackOrder v.frames.length := (mem_trackOrder _ _).2 ⟨h1, ht1⟩
  have hc := hflow (v.frames[t]).originalData (v.frames[t - 1]).originalData (v.frames[t]).features
  refine ⟨_, v.frames[t], v.frames[t - 1],
    trackFrame flow (v.frames[t - 1]).originalData (v.frames[t]),
    trackFeatures_eq flow hflow v, e1, e0, ?_, rfl, surviving_length _ _ _ hc.1 hc.2, ?_⟩
  · simp only [Video.getFrameAt, trackedFrames]
    rw [updateAll_getElem? _ _ (trackOrder_nodup _), if_pos hmem, e1]
    simp [imageAt, e0]
  · intro hnil
    simp [trackFrame, surviving, hnil]

/-- Witness for C1: a three-frame video whose frame 1 has three features, the
second of which the optical flow fails to track. -/
theorem trackFeatures_registers_tracked_pairs_witness :
    ∃ r frameT framePrev frameT',
      trackFeatures witnessFlow witnessVideo = some r ∧
      witnessVideo.getFrameAt 1 = some frameT ∧
      witnessVideo.getFrameAt (1 - 1) = some framePrev ∧
      r.1.getFrameAt 1 = some frameT' ∧
      frameT'.displacements = frameT.displacements ++
        surviving frameT.features
          (witnessFlow frameT.originalData framePrev.originalData frameT.features).nextPositions
          (witnessFlow frameT.originalData framePrev.originalData frameT.features).status ∧
      (surviving frameT.features
          (witnessFlow frameT.originalData framePrev.originalData frameT.features).nextPositions
          (witnessFlow frameT.originalData framePrev.originalData frameT.features).status).length =
        ((witnessFlow frameT.originalData framePrev.originalData frameT.features).status.filter
          (fun s => decide (s ≠ 0))).length ∧
      (frameT.features = [] → frameT'.displacements = frameT.displacements) :=
  trackFeatures_registers_tracked_pairs witnessFlow witnessFlow_contract witnessVideo 1
    (by decide) (by decide)

/-! ## Properties of `applyCropTransform` -/

theorem range_split (n k : Nat) (hk : k < n) :
    List.range n = List.range k ++ k :: List.range' (k + 1) (n - k - 1) := by
  have h1 : List.range' k (n - k) = k :: List.range' (k + 1) (n - k - 1) := by
    have : n - k = (n - k - 1) + 1 := by omega
    rw [this, List.range'_succ]
    simp
  rw [List.range_eq_range', List.range_eq_range', ← h1]
  have := List.range'_append_1 0 k (n - k)
  rw [Nat.zero_add] at this
  rw [this]
  congr 1
  omega

/-- C2: when the crop rectangle lies inside every frame, `applyCropTransform`
finishes without exception, its output has as many frames as the input, and output
frame f holds the sub-image of input frame f on the crop rectangle: its width and
height are those of the rectangle and its element at row i and column j is the
input's at row y + i and column x + j. -/
theorem applyCropTransform_crops_every_frame (v : Video)
    (hin : ∀ frame ∈ v.frames, v.cropBox.inside frame.originalData) :
    (applyCropTransform v).thrown = false ∧
    (applyCropTransform v).croppedVideo.getFrameCount = v.getFrameCount ∧
    ∀ f frame, v.getFrameAt f = some frame →
      ∃ out, (applyCropTransform v).croppedVideo.getFrameAt f = some out ∧
        frame.originalData.roi v.cropBox = some out.originalData ∧
        (out.originalData.cols : Int) = v.cropBox.width ∧
        (out.originalData.rows : Int) = v.cropBox.height ∧
        ∀ i j, out.originalData.elem i j =
          frame.originalData.elem (v.cropBox.y.toNat + i) (v.cropBox.x.toNat + j) := by
  have hidx : ∀ f ∈ List.range v.getFrameCount,
      f < v.frames.length ∧ v.cropBox.inside (imageAt v.frames f) := by
    intro f hf
    have hlt : f < v.frames.length := List.mem_range.1 hf
    have e1 : v.frames[f]? = some v.frames[f] := List.getElem?_eq_getElem hlt
    refine ⟨hlt, ?_⟩
    simp only [imageAt, e1]
    exact hin _ (List.getElem_mem hlt)
  have heq := cropLoop_inside v v.cropBox (List.range v.getFrameCount) hidx
    (Video.ctor (v.getFrameCount : Int) 0) [Signal.processStarted ProcessId.CROP_TRANSFORM]
  unfold applyCropTransform
  rw [heq]
  refine ⟨rfl, by simp [Video.getFrameCount, Video.ctor], ?_⟩
  intro f frame hframe
  have hlt : f < v.frames.length := by
    rcases List.getElem?_eq_some.1 hframe with ⟨hl, _⟩
    exact hl
  have hins : v.cropBox.inside frame.originalData := by
    rcases List.getElem?_eq_some.1 hframe with ⟨hl, he⟩
    rw [← he]
    exact hin _ (List.getElem_mem hl)
  have himg : imageAt v.frames f = frame.originalData := by
    simp only [Video.getFrameAt] at hframe
    simp [imageAt, hframe]
  refine ⟨croppedFrame v v.cropBox f, ?_, ?_, ?_, ?_, ?_⟩
  · simp [Video.getFrameAt, Video.ctor, Video.getFrameCount, List.getElem?_range hlt, hlt]
  · simp [croppedFrame, Frame.ctor, himg, Mat.roi, hins]
  · have := hins.2.1
    simp [croppedFrame, Frame.ctor, Mat.view, Int.toNat_of_nonneg this]
  · have := hins.2.2.2.2.1
    simp [croppedFrame, Frame.ctor, Mat.view, Int.toNat_of_nonneg this]
  · intro i j
    simp [croppedFrame, Frame.ctor, Mat.view, himg]

/-- Witness for C2: the three-frame sample video, cropped to its top-left pixel. -/
theorem applyCropTransform_crops_every_frame_witness :
    (applyCropTransform witnessVideo).thrown = false ∧
    (applyCropTransform witnessVideo).croppedVideo.getFrameCount = witnessVideo.getFrameCount ∧
    ∀ f frame, witnessVideo.getFrameAt f = some frame →
      ∃ out, (applyCropTransform witnessVideo).croppedVideo.getFrameAt f = some out ∧
        frame.originalData.roi witnessVideo.cropBox = some out.originalData ∧
        (out.originalData.cols : Int) = witnessVideo.cropBox.width ∧
        (out.originalData.rows : Int) = witnessVideo.cropBox.height ∧
        ∀ i j, out.originalData.elem i j =
          frame.originalData.elem (witnessVideo.cropBox.y.toNat + i)
            (witnessVideo.cropBox.x.toNat + j) :=
  applyCropTransform_crops_every_frame witnessVideo (by decide)

/-- Counterexample to C6: on a video whose frame 1 does not contain the crop
rectangle, `applyCropTransform` ends in the exception only after it has extracted
the sub-image of frame 0 and appended it to the output. -/
theorem applyCropTransform_appends_before_failing :
    (applyCropTransform raggedVideo).thrown = true ∧
    (applyCropTransform raggedVideo).croppedVideo.frames.length = 1 ∧
    progressPairs (applyCropTransform raggedVideo).signals = [(0, 2), (1, 2)] := by
  decide

/-- C6, amended: `applyCropTransform` checks nothing before the loop.  When k is
the first frame index whose bounds do not contain the crop rectangle, the run ends
in the exception of the sub-image at index k: the output then holds the sub-images
of the frames 0 to k-1, in order, and nothing else, and the signals emitted are
`processStarted` and the progress of the indices 0 to k, without `processFinished`. -/
theorem applyCropTransform_fails_at_first_offending_frame (v : Video) (k : Nat)
    (hk : k < v.getFrameCount)
    (hbad : ¬ v.cropBox.inside (imageAt v.frames k))
    (hgood : ∀ j, j < k → v.cropBox.inside (imageAt v.frames j)) :
    (applyCropTransform v).thrown = true ∧
    (applyCropTransform v).croppedVideo.frames = (List.range k).map (croppedFrame v v.cropBox) ∧
    (applyCropTransform v).signals =
      Signal.processStarted ProcessId.CROP_TRANSFORM ::
        (List.range (k + 1)).map (cropProgress v) := by
  have hpre : ∀ f ∈ List.range k,
      f < v.frames.length ∧ v.cropBox.inside (imageAt v.frames f) := by
    intro f hf
    have hlt : f < k := List.mem_range.1 hf
    have hk2 : k < v.frames.length := hk
    exact ⟨by omega, hgood f hlt⟩
  have heq := cropLoop_outside v v.cropBox (List.range k) k
    (List.range' (k + 1) (v.getFrameCount - k - 1)) hpre hbad
    (Video.ctor (v.getFrameCount : Int) 0) [Signal.processStarted ProcessId.CROP_TRANSFORM]
  unfold applyCropTransform
  rw [range_split v.getFrameCount k hk, heq]
  simp [Video.ctor, List.range_succ]

/-- Witness for C6, amended: the ragged video, whose first offending frame is
frame 1. -/
theorem applyCropTransform_fails_at_first_offending_frame_witness :
    (applyCropTransform raggedVideo).thrown = true ∧
    (applyCropTransform raggedVideo).croppedVideo.frames =
      (List.range 1).map (croppedFrame raggedVideo raggedVideo.cropBox) ∧
    (applyCropTransform raggedVideo).signals =
      Signal.processStarted ProcessId.CROP_TRANSFORM ::
        (List.range (1 + 1)).map (cropProgress raggedVideo) :=
  applyCropTransform_fails_at_first_offending_frame raggedVideo 1 (by decide) (by decide)
    (by decide)

/-! ## Properties of `loadVideo` -/

/-- Counterexample to C7: a source that opens and yields no frame.  `loadVideo`
assigns `videoPath`, replaces `video` by a new empty video and emits `videoLoaded`. -/
theorem loadVideo_keeps_state_of_empty_source :
    (loadVideo emptySource idleProcessor "clip.avi").1.videoPath ≠ idleProcessor.videoPath ∧
    ((loadVideo emptySource idleProcessor "clip.avi").1.video.map Video.getFrameCount = some 0 ∧
      idleProcessor.video.map Video.getFrameCount = none) ∧
    Signal.videoLoaded ∈ (loadVideo emptySource idleProcessor "clip.avi").2 := by
  decide

/-- C7, amended: when the frame source cannot be opened, `loadVideo` leaves the
processor as it was and emits `processStarted` and `processFinished` only; when the
source opens but yields no frame, `loadVideo` assigns the path to `videoPath`,
replaces `video` by a new video without frames and emits `videoLoaded`. -/
theorem loadVideo_on_unavailable_input (openCapture : String → Option Capture)
    (self : VideoProcessor) (path : String) :
    (openCapture path = none →
      loadVideo openCapture self path =
        (self, [Signal.processStarted ProcessId.VIDEO_LOADING,
                Signal.processFinished ProcessId.VIDEO_LOADING])) ∧
    (∀ vc, openCapture path = some vc → vc.frames = [] →
      loadVideo openCapture self path =
        ({ self with videoPath := path, video := some (Video.ctor vc.frameCount vc.fps) },
         [Signal.processStarted ProcessId.VIDEO_LOADING, Signal.videoLoaded,
          Signal.processFinished ProcessId.VIDEO_LOADING])) := by
  constructor
  · intro h
    simp [loadVideo, h]
  · intro vc h hnil
    simp [loadVideo, h, hnil, readLoop]

/-- Witness for C7, amended: a source that does not open, and a source that opens
and yields no frame. -/
theorem loadVideo_on_unavailable_input_witness :
    loadVideo closedSource idleProcessor "clip.avi" =
        (idleProcessor, [Signal.processStarted ProcessId.VIDEO_LOADING,
                Signal.processFinished ProcessId.VIDEO_LOADING]) ∧
    loadVideo emptySource idleProcessor "clip.avi" =
        ({ idleProcessor with videoPath := "clip.avi", video := some (Video.ctor 0 25) },
         [Signal.processStarted ProcessId.VIDEO_LOADING, Signal.videoLoaded,
          Signal.processFinished ProcessId.VIDEO_LOADING]) :=
  ⟨(loadVideo_on_unavailable_input closedSource idleProcessor "clip.avi").1 rfl,
   (loadVideo_on_unavailable_input emptySource idleProcessor "clip.avi").2
     { frameCount := 0, fps := 25, frames := [] } rfl rfl⟩

theorem sampleApi_inRange (status : SolveStatus) : LettersInRange (sampleApi status) := by
  intro l hl
  simp only [letters, List.mem_cons, List.mem_singleton, List.not_mem_nil, or_false] at hl
  rcases hl with h | h | h | h | h <;> subst h <;> simp only [sampleApi] <;> decide

theorem assembleLoop_withStatus {M : Type} (api : L1Api M) (status : SolveStatus) (model : M)
    (t : Nat) (ls : List Char) (m : Mat) :
    assembleLoop (api.withStatus status) model t ls m = assembleLoop api model t ls m := by
  induction ls generalizing m with
  | nil => rfl
  | cons l ls ih =>
    simp only [assembleLoop]
    cases h : m.setAt (api.toRow l) (api.toCol l) (api.getVariableSolution model t l) with
    | none =>
      have h2 : m.setAt ((api.withStatus status).toRow l) ((api.withStatus status).toCol l)
          ((api.withStatus status).getVariableSolution model t l) = none := h
      rw [h2]
    | some m2 =>
      have h2 : m.setAt ((api.withStatus status).toRow l) ((api.withStatus status).toCol l)
          ((api.withStatus status).getVariableSolution model t l) = some m2 := h
      rw [h2]
      exact ih m2

theorem updateLoop_withStatus {M : Type} (api : L1Api M) (status : SolveStatus) (model : M)
    (prior : Nat → Nat → Nat → Scalar) (idx : List Nat) (v : Video) :
    updateLoop (api.withStatus status) model prior idx v = updateLoop api model prior idx v := by
  induction idx generalizing v with
  | nil => rfl
  | cons t ts ih =>
    simp only [updateLoop, assemble, assembleLoop_withStatus]
    cases assembleLoop api model t letters (Mat.create 2 3 (prior t)) with
    | none => rfl
    | some m =>
      cases v.getFrameAt t with
      | none => rfl
      | some f => exact ih _

/-! ## Progress signals -/

theorem progressPairs_append (a b : List Signal) :
    progressPairs (a ++ b) = progressPairs a ++ progressPairs b := by
  simp [progressPairs]

theorem progressValues_append (a b : List Signal) :
    progressValues (a ++ b) = progressValues a ++ progressValues b := by
  simp [progressValues]

theorem progressPairs_map (idx : List Nat) (cur tot : Nat → Int) :
    progressPairs (idx.map (fun (i : Nat) => Signal.progressMade (cur i) (tot i))) =
      idx.map (fun (i : Nat) => (cur i, tot i)) := by
  induction idx with
  | nil => rfl
  | cons i is ih =>
    simp only [progressPairs] at ih
    simp [progressPairs, Signal.progressPair, ih]

theorem progressValues_map (idx : List Nat) (cur tot : Nat → Int) :
    progressValues (idx.map (fun (i : Nat) => Signal.progressMade (cur i) (tot i))) =
      idx.map cur := by
  induction idx with
  | nil => rfl
  | cons i is ih =>
    simp only [progressValues] at ih
    simp [progressValues, Signal.progressValue, ih]

theorem pairwise_lt_cast (idx : List Nat) (h : idx.Pairwise (fun a b => a < b)) :
    (idx.map (fun (i : Nat) => (i : Int))).Pairwise (fun a b => a < b) := by
  rw [List.pairwise_map]
  exact h.imp (fun hab => by exact_mod_cast hab)

theorem trackOrder_progress (n : Nat) :
    (trackOrder n).map (fun (i : Nat) => (n : Int) - (i : Int)) =
      (List.range' 1 (n - 1)).map (fun (k : Nat) => (k : Int)) := by
  unfold trackOrder
  rw [List.reverse_range', List.range'_eq_map_range, List.map_map, List.map_map]
  apply List.map_congr_left
  intro i hi
  have hlt : i < n - 1 := List.mem_range.1 hi
  simp only [Function.comp]
  omega

/-! ## Properties of `calculateUpdateTransform` -/

theorem writeAll_untouched {M : Type} (api : L1Api M) (model : M) (t : Nat) (ls : List Char)
    (r c : Nat) (h : ∀ l ∈ ls, ¬ (r = (api.toRow l).toNat ∧ c = (api.toCol l).toNat))
    (e : Nat → Nat → Scalar) :
    writeAll api model t ls e r c = e r c := by
  induction ls generalizing e with
  | nil => rfl
  | cons l ls ih =>
    simp only [writeAll]
    rw [ih (fun k hk => h k (List.mem_cons_of_mem _ hk))]
    simp [h l (List.mem_cons_self _ _)]

theorem exists_unwritten_cell {M : Type} (api : L1Api M) :
    ∃ r c, r < 2 ∧ c < 3 ∧
      ∀ l ∈ letters, ¬ (r = (api.toRow l).toNat ∧ c = (api.toCol l).toNat) := by
  by_contra hcon
  have hsub : Finset.range 2 ×ˢ Finset.range 3 ⊆
      (letters.map (fun l => ((api.toRow l).toNat, (api.toCol l).toNat))).toFinset := by
    intro x hx
    rcases Finset.mem_product.1 hx with ⟨h1, h2⟩
    by_contra hx2
    apply hcon
    refine ⟨x.1, x.2, Finset.mem_range.1 h1, Finset.mem_range.1 h2, ?_⟩
    intro l hl hcell
    apply hx2
    rw [List.mem_toFinset, List.mem_map]
    exact ⟨l, hl, by rw [← hcell.1, ← hcell.2]⟩
  have h1 := Finset.card_le_card hsub
  have h2 := List.toFinset_card_le
    (letters.map (fun l => ((api.toRow l).toNat, (api.toCol l).toNat)))
  simp [letters] at h1 h2
  omega

theorem updatedFrames_getElem? {M : Type} (api : L1Api M) (model : M)
    (prior : Nat → Nat → Nat → Scalar) (v : Video) (t : Nat) (h1 : 1 ≤ t)
    (ht : t < v.frames.length) :
    (updatedFrames api model prior v)[t]? =
      some ((v.frames[t]).setUpdateTransform (assembled api model prior t)) := by
  have hmem : t ∈ List.range' 1 (v.frames.length - 1) := by
    rw [List.mem_range'_1]
    omega
  unfold updatedFrames
  rw [updateAll_getElem? _ _ (List.nodup_range' 1 (v.frames.length - 1)), if_pos hmem,
    List.getElem?_eq_getElem ht]
  rfl

/-- C3, as the code behaves: five writes cannot fill six entries.  Whatever
`toRow` and `toCol` are, there is an entry (r, c) of the 2x3 matrix that no letter
from `'a'` to `'e'` is written to, and the update transform stored on every frame
t with 1 <= t <= N-1 holds at (r, c) what the freshly allocated buffer held
before. -/
theorem calculateUpdateTransform_leaves_an_entry_unset {M : Type} (api : L1Api M)
    (hin : LettersInRange api) (prior : Nat → Nat → Nat → Scalar) (v : Video) :
    ∃ r c, r < 2 ∧ c < 3 ∧
      ∃ res, calculateUpdateTransform api prior v = some res ∧
        ∀ t, 1 ≤ t → t < v.getFrameCount →
          ∃ f, res.1.getFrameAt t = some f ∧
            f.updateTransform.rows = 2 ∧ f.updateTransform.cols = 3 ∧
            f.updateTransform.elem r c = prior t r c := by
  obtain ⟨r, c, hr, hc, hcell⟩ := exists_unwritten_cell api
  refine ⟨r, c, hr, hc, _, calculateUpdateTransform_eq api hin prior v, ?_⟩
  intro t h1 ht
  refine ⟨_, updatedFrames_getElem? api _ prior v t h1 ht, rfl, rfl, ?_⟩
  simp only [Frame.setUpdateTransform, assembled]
  exact writeAll_untouched api _ t letters r c hcell (prior t)

/-- Witness for C3: the sample placement of the letters on the three-frame sample
video; the entry at row 1 and column 2 of the matrix stored on frame 1 is 0 when
the buffer held zeros and 7 when it held sevens. -/
theorem calculateUpdateTransform_leaves_an_entry_unset_witness :
    (∃ r c, r < 2 ∧ c < 3 ∧
      ∃ res, calculateUpdateTransform (sampleApi SolveStatus.optimal) (fun _ _ _ => 0)
          witnessVideo = some res ∧
        ∀ t, 1 ≤ t → t < witnessVideo.getFrameCount →
          ∃ f, res.1.getFrameAt t = some f ∧
            f.updateTransform.rows = 2 ∧ f.updateTransform.cols = 3 ∧
            f.updateTransform.elem r c = (fun _ _ _ => 0) t r c) ∧
    ((calculateUpdateTransform (sampleApi SolveStatus.optimal) (fun _ _ _ => 0)
        witnessVideo).bind (fun res => (res.1.getFrameAt 1).map
          (fun f => f.updateTransform.elem 1 2)) = some 0 ∧
     (calculateUpdateTransform (sampleApi SolveStatus.optimal) (fun _ _ _ => 7)
        witnessVideo).bind (fun res => (res.1.getFrameAt 1).map
          (fun f => f.updateTransform.elem 1 2)) = some 7) :=
  ⟨calculateUpdateTransform_leaves_an_entry_unset (sampleApi SolveStatus.optimal)
      (sampleApi_inRange SolveStatus.optimal) (fun _ _ _ => 0) witnessVideo,
   by decide⟩

/-! ## Properties of `calculateMotionModel` -/

/-- C10, as the code behaves: on every video of N >= 2 frames
`calculateMotionModel` emits the progress notification (N-1, N-2), whose current
value exceeds its total. -/
theorem calculateMotionModel_progress_exceeds_total
    (estimateRigidTransform : List Point2f → List Point2f → Bool → Mat) (v : Video)
    (h : 2 ≤ v.getFrameCount) :
    ∃ current total,
      (current, total) ∈ progressPairs (calculateMotionModel estimateRigidTransform v).signals ∧
      current = (v.getFrameCount : Int) - 1 ∧ total = (v.getFrameCount : Int) - 2 ∧
      total < current := by
  refine ⟨(v.getFrameCount : Int) - 1, (v.getFrameCount : Int) - 2, ?_, rfl, rfl, by omega⟩
  rw [calculateMotionModel_eq]
  simp only [progressPairs_append, progressPairs_map, List.mem_append, List.mem_map]
  left
  right
  have h2 : 2 ≤ v.frames.length := h
  refine ⟨v.frames.length - 1, ?_, ?_⟩
  · rw [List.mem_range'_1]
    omega
  · simp only [Video.getFrameCount, Prod.mk.injEq, and_true]
    omega

/-- Witness for C10: on the two-frame video the only progress notification of
`calculateMotionModel` is (1, 0). -/
theorem calculateMotionModel_progress_exceeds_total_witness :
    (∃ current total,
      (current, total) ∈ progressPairs (calculateMotionModel sampleFit gapVideo).signals ∧
      current = (gapVideo.getFrameCount : Int) - 1 ∧
      total = (gapVideo.getFrameCount : Int) - 2 ∧
      total < current) ∧
    progressPairs (calculateMotionModel sampleFit gapVideo).signals = [(1, 0)] :=
  ⟨calculateMotionModel_progress_exceeds_total sampleFit gapVideo (by decide), by decide⟩

theorem motionFrames_getElem?
    (estimateRigidTransform : List Point2f → List Point2f → Bool → Mat) (v : Video) (t : Nat)
    (h1 : 1 ≤ t) (ht : t < v.frames.length) :
    (motionFrames estimateRigidTransform v)[t]? =
      some (motionFrame estimateRigidTransform (v.frames[t])) := by
  have hmem : t ∈ List.range' 1 (v.frames.length - 1) := by
    rw [List.mem_range'_1]
    omega
  unfold motionFrames
  rw [updateAll_getElem? _ _ (List.nodup_range' 1 (v.frames.length - 1)), if_pos hmem,
    List.getElem?_eq_getElem ht]
  rfl

theorem fitCalls_getElem? (fs : List Frame) (t : Nat) (h1 : 1 ≤ t) (ht : t < fs.length) :
    ((List.range' 1 (fs.length - 1)).filterMap
      (fun i => fs[i]?.map Frame.getInliers))[t - 1]? = some (fs[t]).getInliers := by
  have hcongr : (List.range' 1 (fs.length - 1)).filterMap
        (fun i => fs[i]?.map Frame.getInliers) =
      (List.range' 1 (fs.length - 1)).map
        (fun i => (fs.getD i (Frame.ctor Mat.empty)).getInliers) := by
    rw [← List.filterMap_eq_map]
    apply List.filterMap_congr
    intro i hi
    have hlt : i < fs.length := by
      have := List.mem_range'_1.1 hi
      omega
    simp [List.getElem?_eq_getElem hlt, List.getD_eq_getElem?_getD]
  have hidx : t - 1 < fs.length - 1 := by omega
  rw [hcongr, List.getElem?_map, List.getElem?_range' 1 1 hidx]
  have ht2 : 1 + 1 * (t - 1) = t := by omega
  rw [ht2]
  simp [List.getD_eq_getElem?_getD, List.getElem?_eq_getElem ht]

/-- Counterexample to C4: frame 1 of the two-frame video has no inlier pair, and
`calculateMotionModel` hands its empty point sets to the affine fit and stores the
matrix the fit returns. -/
theorem calculateMotionModel_fits_underdetermined_frame :
    (gapVideo.getFrameAt 1).map (fun f => f.getInliers.1.length) = some 0 ∧
    (calculateMotionModel sampleFit gapVideo).fitCalls = [([], [])] ∧
    ((calculateMotionModel sampleFit gapVideo).video.getFrameAt 1).map
      (fun f => (f.affineTransform.rows, f.affineTransform.cols)) = some (2, 3) := by
  decide

/-- C4, amended: for every frame t with 1 <= t <= N-1, whatever the number of its
inlier pairs, `calculateMotionModel` hands the frame's inlier source and
destination points to the affine fit (the call of index t-1) and stores what the
fit returns as the frame's observed transform. -/
theorem calculateMotionModel_fits_every_frame
    (estimateRigidTransform : List Point2f → List Point2f → Bool → Mat) (v : Video) (t : Nat)
    (h1 : 1 ≤ t) (ht : t < v.getFrameCount) :
    ∃ frame frame',
      v.getFrameAt t = some frame ∧
      (calculateMotionModel estimateRigidTransform v).video.getFrameAt t = some frame' ∧
      (calculateMotionModel estimateRigidTransform v).fitCalls[t - 1]? = some frame.getInliers ∧
      frame'.affineTransform =
        estimateRigidTransform frame.getInliers.1 frame.getInliers.2 true := by
  have ht1 : t < v.frames.length := ht
  refine ⟨v.frames[t], motionFrame estimateRigidTransform (v.frames[t]),
    List.getElem?_eq_getElem ht1, ?_, ?_, rfl⟩
  · rw [calculateMotionModel_eq]
    exact motionFrames_getElem? estimateRigidTransform v t h1 ht1
  · rw [calculateMotionModel_eq]
    exact fitCalls_getElem? v.frames t h1 ht1

/-- Witness for C4, amended: frame 1 of the three-frame sample video, which has
one inlier pair. -/
theorem calculateMotionModel_fits_every_frame_witness :
    ∃ frame frame',
      witnessVideo.getFrameAt 1 = some frame ∧
      (calculateMotionModel sampleFit witnessVideo).video.getFrameAt 1 = some frame' ∧
      (calculateMotionModel sampleFit witnessVideo).fitCalls[1 - 1]? = some frame.getInliers ∧
      frame'.affineTransform = sampleFit frame.getInliers.1 frame.getInliers.2 true :=
  calculateMotionModel_fits_every_frame sampleFit witnessVideo 1 (by decide) (by decide)

/-- Counterexample to C5: the solve reports infeasibility, and
`calculateUpdateTransform` emits the signals of a normal run and stores a 2x3
update transform on frame 1, which had none. -/
theorem calculateUpdateTransform_ignores_infeasibility :
    ((sampleApi SolveStatus.infeasible).solve
      ((sampleApi SolveStatus.infeasible).construct gapVideo)).2 = SolveStatus.infeasible ∧
    (calculateUpdateTransform (sampleApi SolveStatus.infeasible) (fun _ _ _ => 0) gapVideo).map
        Prod.snd =
      some [Signal.processStarted ProcessId.STILL_MOTION, Signal.progressMade 1 3,
        Signal.progressMade 2 3, Signal.progressMade 3 3,
        Signal.processFinished ProcessId.STILL_MOTION] ∧
    (gapVideo.getFrameAt 1).map (fun f => f.updateTransform.rows) = some 0 ∧
    (calculateUpdateTransform (sampleApi SolveStatus.infeasible) (fun _ _ _ => 0) gapVideo).bind
        (fun res => (res.1.getFrameAt 1).map
          (fun f => (f.updateTransform.rows, f.updateTransform.elem 0 0))) = some (2, 197) := by
  decide

/-- C5, amended: `calculateUpdateTransform` does not look at what the solve
reports.  Whatever the status, it returns normally with the signals
`processStarted`, progress 1/3, 2/3, 3/3 and `processFinished`, and it stores on
every frame t with 1 <= t <= N-1 the matrix assembled from `getVariableSolution`;
replacing the reported status by any other changes nothing in the outcome. -/
theorem calculateUpdateTransform_runs_whatever_the_status {M : Type} (api : L1Api M)
    (hin : LettersInRange api) (prior : Nat → Nat → Nat → Scalar) (v : Video) :
    (∃ res, calculateUpdateTransform api prior v = some res ∧
      res.2 = [Signal.processStarted ProcessId.STILL_MOTION, Signal.progressMade 1 3,
        Signal.progressMade 2 3, Signal.progressMade 3 3,
        Signal.processFinished ProcessId.STILL_MOTION] ∧
      ∀ t, 1 ≤ t → t < v.getFrameCount →
        ∃ f, res.1.getFrameAt t = some f ∧
          f.updateTransform = assembled api (api.solve (api.construct v)).1 prior t) ∧
    ∀ status, calculateUpdateTransform (api.withStatus status) prior v =
      calculateUpdateTransform api prior v := by
  refine ⟨⟨_, calculateUpdateTransform_eq api hin prior v, rfl, ?_⟩, ?_⟩
  · intro t h1 ht
    exact ⟨_, updatedFrames_getElem? api _ prior v t h1 ht, rfl⟩
  · intro status
    unfold calculateUpdateTransform
    simp only [updateLoop_withStatus]
    rfl

/-- Witness for C5, amended: the sample model with an infeasible solve on the
two-frame video. -/
theorem calculateUpdateTransform_runs_whatever_the_status_witness :
    (∃ res, calculateUpdateTransform (sampleApi SolveStatus.infeasible) (fun _ _ _ => 0)
        gapVideo = some res ∧
      res.2 = [Signal.processStarted ProcessId.STILL_MOTION, Signal.progressMade 1 3,
        Signal.progressMade 2 3, Signal.progressMade 3 3,
        Signal.processFinished ProcessId.STILL_MOTION] ∧
      ∀ t, 1 ≤ t → t < gapVideo.getFrameCount →
        ∃ f, res.1.getFrameAt t = some f ∧
          f.updateTransform = assembled (sampleApi SolveStatus.infeasible)
            ((sampleApi SolveStatus.infeasible).solve
              ((sampleApi SolveStatus.infeasible).construct gapVideo)).1 (fun _ _ _ => 0) t) ∧
    ∀ status,
      calculateUpdateTransform ((sampleApi SolveStatus.infeasible).withStatus status)
          (fun _ _ _ => 0) gapVideo =
        calculateUpdateTransform (sampleApi SolveStatus.infeasible) (fun _ _ _ => 0) gapVideo :=
  calculateUpdateTransform_runs_whatever_the_status (sampleApi SolveStatus.infeasible)
    (sampleApi_inRange SolveStatus.infeasible) (fun _ _ _ => 0) gapVideo

/-! ## Frame effects of the stages -/

theorem framewise_updateAll (R : Frame → Frame → Prop) (hrefl : ∀ f, R f f)
    (upd : Nat → Frame → Frame) (hupd : ∀ i f, R f (upd i f)) (idx : List Nat)
    (hnd : idx.Nodup) (v : Video) :
    v.framewise R { v with frames := (updateAll upd idx v.frames) } := by
  refine ⟨updateAll_length upd idx v.frames, rfl, rfl, ?_⟩
  intro k f hf
  simp only [Video.getFrameAt] at hf ⊢
  rw [updateAll_getElem? upd idx hnd, hf]
  by_cases hk : k ∈ idx
  · exact ⟨upd k f, by simp [hk], hupd k f⟩
  · exact ⟨f, by simp [hk], hrefl f⟩

theorem updateAll_first (upd : Nat → Frame → Frame) (idx : List Nat) (hnd : idx.Nodup)
    (h0 : 0 ∉ idx) (fs : List Frame) : (updateAll upd idx fs)[0]? = fs[0]? := by
  rw [updateAll_getElem? upd idx hnd, if_neg h0]

theorem zero_not_mem_range' (n : Nat) : 0 ∉ List.range' 1 n := by
  intro h
  have := List.mem_range'_1.1 h
  omega

theorem zero_not_mem_trackOrder (n : Nat) : 0 ∉ trackOrder n := by
  intro h
  have := (mem_trackOrder n 0).1 h
  omega

theorem detectFeatures_eq (detect : Mat → List Point2f) (v : Video) :
    detectFeatures detect v =
      ({ v with frames :=
          (updateAll (fun _ f => detectFrame detect f) (List.range v.frames.length) v.frames) },
       [Signal.processStarted ProcessId.FEATURE_DETECTION] ++
         (List.range v.frames.length).map (fun (i : Nat) =>
           Signal.progressMade (i : Int) ((v.frames.length : Int) - 1)) ++
         [Signal.videoUpdated, Signal.processFinished ProcessId.FEATURE_DETECTION]) := by
  unfold detectFeatures
  simp only [Video.getFrameCount]
  rw [detectFeatures_fold]

/-- C8: on the per-frame state each stage writes its own field only.  For every
video, `detectFeatures` leaves every frame as it was except for its features,
`trackFeatures` except for its displacements, `calculateMotionModel` except for its
observed transform and `calculateUpdateTransform` except for its update transform;
none of them changes the number of frames, and the last three leave frame 0 as it
was. -/
theorem stages_write_their_own_field (detect : Mat → List Point2f)
    (flow : Mat → Mat → List Point2f → FlowResult) (hflow : FlowContract flow)
    (estimateRigidTransform : List Point2f → List Point2f → Bool → Mat)
    {M : Type} (api : L1Api M) (hin : LettersInRange api)
    (prior : Nat → Nat → Nat → Scalar) (v : Video) :
    v.framewise Frame.sameButFeatures (detectFeatures detect v).1 ∧
    (∃ r, trackFeatures flow v = some r ∧
      v.framewise Frame.sameButDisplacements r.1 ∧ r.1.getFrameAt 0 = v.getFrameAt 0) ∧
    (v.framewise Frame.sameButAffineTransform
        (calculateMotionModel estimateRigidTransform v).video ∧
      (calculateMotionModel estimateRigidTransform v).video.getFrameAt 0 = v.getFrameAt 0) ∧
    (∃ r, calculateUpdateTransform api prior v = some r ∧
      v.framewise Frame.sameButUpdateTransform r.1 ∧ r.1.getFrameAt 0 = v.getFrameAt 0) := by
  refine ⟨?_, ⟨_, trackFeatures_eq flow hflow v, ?_, ?_⟩, ⟨?_, ?_⟩,
    ⟨_, calculateUpdateTransform_eq api hin prior v, ?_, ?_⟩⟩
  · rw [detectFeatures_eq]
    exact framewise_updateAll _ (fun _ => ⟨rfl, rfl, rfl, rfl⟩) _
      (fun _ _ => ⟨rfl, rfl, rfl, rfl⟩) _ (List.nodup_range _) v
  · exact framewise_updateAll _ (fun _ => ⟨rfl, rfl, rfl, rfl⟩) _
      (fun _ _ => ⟨rfl, rfl, rfl, rfl⟩) _ (trackOrder_nodup _) v
  · exact updateAll_first _ _ (trackOrder_nodup _) (zero_not_mem_trackOrder _) v.frames
  · rw [calculateMotionModel_eq]
    exact framewise_updateAll _ (fun _ => ⟨rfl, rfl, rfl, rfl⟩) _
      (fun _ _ => ⟨rfl, rfl, rfl, rfl⟩) _ (List.nodup_range' 1 _) v
  · rw [calculateMotionModel_eq]
    exact updateAll_first _ _ (List.nodup_range' 1 _) (zero_not_mem_range' _) v.frames
  · exact framewise_updateAll _ (fun _ => ⟨rfl, rfl, rfl, rfl⟩) _
      (fun _ _ => ⟨rfl, rfl, rfl, rfl⟩) _ (List.nodup_range' 1 _) v
  · exact updateAll_first _ _ (List.nodup_range' 1 _) (zero_not_mem_range' _) v.frames

/-- Witness for C8: the four stages on the three-frame sample video. -/
theorem stages_write_their_own_field_witness :
    witnessVideo.framewise Frame.sameButFeatures (detectFeatures sampleDetect witnessVideo).1 ∧
    (∃ r, trackFeatures witnessFlow witnessVideo = some r ∧
      witnessVideo.framewise Frame.sameButDisplacements r.1 ∧
      r.1.getFrameAt 0 = witnessVideo.getFrameAt 0) ∧
    (witnessVideo.framewise Frame.sameButAffineTransform
        (calculateMotionModel sampleFit witnessVideo).video ∧
      (calculateMotionModel sampleFit witnessVideo).video.getFrameAt 0 =
        witnessVideo.getFrameAt 0) ∧
    (∃ r, calculateUpdateTransform (sampleApi SolveStatus.optimal) (fun _ _ _ => 0)
        witnessVideo = some r ∧
      witnessVideo.framewise Frame.sameButUpdateTransform r.1 ∧
      r.1.getFrameAt 0 = witnessVideo.getFrameAt 0) :=
  stages_write_their_own_field sampleDetect witnessFlow witnessFlow_contract sampleFit
    (sampleApi SolveStatus.optimal) (sampleApi_inRange SolveStatus.optimal) (fun _ _ _ => 0)
    witnessVideo

/-! ## Order of the progress values -/

/-- C9: within one run of each stage the progress values emitted are strictly
increasing.  `detectFeatures` and `calculateMotionModel` emit the indices they
visit, `trackFeatures`, which visits the frames from N-1 down to 1, emits
1, 2, ..., N-1, `calculateUpdateTransform` emits 1, 2, 3, and `applyCropTransform`
emits the indices it reaches, whether or not it ends in an exception. -/
theorem progress_values_strictly_increase (detect : Mat → List Point2f)
    (flow : Mat → Mat → List Point2f → FlowResult) (hflow : FlowContract flow)
    (estimateRigidTransform : List Point2f → List Point2f → Bool → Mat)
    {M : Type} (api : L1Api M) (hin : LettersInRange api)
    (prior : Nat → Nat → Nat → Scalar) (v : Video) :
    (progressValues (detectFeatures detect v).2).Pairwise (fun a b => a < b) ∧
    (∃ r, trackFeatures flow v = some r ∧
      progressValues r.2 = (List.range' 1 (v.getFrameCount - 1)).map (fun (k : Nat) => (k : Int)) ∧
      (progressValues r.2).Pairwise (fun a b => a < b)) ∧
    (progressValues (calculateMotionModel estimateRigidTransform v).signals).Pairwise
      (fun a b => a < b) ∧
    (∃ r, calculateUpdateTransform api prior v = some r ∧ progressValues r.2 = [1, 2, 3] ∧
      (progressValues r.2).Pairwise (fun a b => a < b)) ∧
    (progressValues (applyCropTransform v).signals).Pairwise (fun a b => a < b) := by
  have htrack : progressValues
      ([Signal.processStarted ProcessId.FEATURE_TRACKING] ++
        (trackOrder v.frames.length).map (fun (i : Nat) => Signal.progressMade
          ((v.frames.length : Int) - (i : Int)) (v.frames.length : Int)) ++
        [Signal.videoUpdated, Signal.processFinished ProcessId.FEATURE_TRACKING]) =
      (List.range' 1 (v.getFrameCount - 1)).map (fun (k : Nat) => (k : Int)) := by
    rw [progressValues_append, progressValues_append, progressValues_map, trackOrder_progress]
    simp [progressValues, Signal.progressValue, Video.getFrameCount]
  refine ⟨?_, ⟨_, trackFeatures_eq flow hflow v, htrack, ?_⟩, ?_,
    ⟨_, calculateUpdateTransform_eq api hin prior v, ?_, ?_⟩, ?_⟩
  · rw [detectFeatures_eq]
    simp only [progressValues_append, progressValues_map]
    simpa [progressValues, Signal.progressValue] using
      pairwise_lt_cast _ (List.pairwise_lt_range v.frames.length)
  · simp only [htrack]
    exact pairwise_lt_cast _ (List.pairwise_lt_range' 1 _)
  · rw [calculateMotionModel_eq]
    simp only [progressValues_append, progressValues_map]
    simpa [progressValues, Signal.progressValue] using
      pairwise_lt_cast _ (List.pairwise_lt_range' 1 (v.frames.length - 1))
  · simp [progressValues, Signal.progressValue]
  · simp [progressValues, Signal.progressValue]
  · obtain ⟨pre, hpre, heq⟩ := cropLoop_progress v v.cropBox (List.range v.getFrameCount)
      (Video.ctor (v.getFrameCount : Int) 0) [Signal.processStarted ProcessId.CROP_TRANSFORM]
    unfold applyCropTransform
    rw [heq]
    simpa [progressValues, Signal.progressValue] using
      pairwise_lt_cast _ ((List.pairwise_lt_range v.getFrameCount).sublist hpre.sublist)

/-- Witness for C9: the five stages on the three-frame sample video. -/
theorem progress_values_strictly_increase_witness :
    (progressValues (detectFeatures sampleDetect witnessVideo).2).Pairwise (fun a b => a < b) ∧
    (∃ r, trackFeatures witnessFlow witnessVideo = some r ∧
      progressValues r.2 =
        (List.range' 1 (witnessVideo.getFrameCount - 1)).map (fun (k : Nat) => (k : Int)) ∧
      (progressValues r.2).Pairwise (fun a b => a < b)) ∧
    (progressValues (calculateMotionModel sampleFit witnessVideo).signals).Pairwise
      (fun a b => a < b) ∧
    (∃ r, calculateUpdateTransform (sampleApi SolveStatus.optimal) (fun _ _ _ => 0)
        witnessVideo = some r ∧ progressValues r.2 = [1, 2, 3] ∧
      (progressValues r.2).Pairwise (fun a b => a < b)) ∧
    (progressValues (applyCropTransform witnessVideo).signals).Pairwise (fun a b => a < b) :=
  progress_values_strictly_increase sampleDetect witnessFlow witnessFlow_contract sampleFit
    (sampleApi SolveStatus.optimal) (sampleApi_inRange SolveStatus.optimal) (fun _ _ _ => 0)
    witnessVideo

end Motion
